import Mathlib

/-!
Shallow embedding of the artifact-bundling cache engine of the
gradle-build-action repository (sources: src/src/caches.ts, which
concatenates the cache entry points and the GradleUserHomeCache class).

External collaborators that are part of the repository but not present
under src (cache-utils.ts: hashFileNames, getCacheKeyPrefix, tryDelete,
AbstractCache.restoreCache / saveCache) are modelled from the spec, as
marked on each definition. Node built-ins (path.resolve, path.relative,
String.prototype.trim) are modelled directly.
-/

namespace GradleBuildAction

/-- Model of the whitespace test used by the JavaScript string trim
(the common ASCII whitespace characters). -/
def isJsWhitespace (c : Char) : Bool :=
  c == ' ' || c == '\t' || c == '\n' || c == '\r' || c == '\x0b' || c == '\x0c'

/-- Drop leading whitespace characters. -/
def trimLeftChars (l : List Char) : List Char :=
  l.dropWhile isJsWhitespace

/-- Drop trailing whitespace characters. -/
def trimRightChars (l : List Char) : List Char :=
  (l.reverse.dropWhile isJsWhitespace).reverse

/-- Model of the JavaScript string trim: remove leading and trailing
whitespace. -/
def jsTrim (s : String) : String :=
  String.mk (trimRightChars (trimLeftChars s.data))

/-- Model of Node path.resolve restricted to joining one segment under an
absolute root, which is how the source uses it. -/
def pathJoin (root seg : String) : String :=
  root ++ "/" ++ seg

/-- Strip an expected leading character sequence; nothing when the second
list does not start with the first. -/
def stripRoot : List Char → List Char → Option (List Char)
  | [], l => some l
  | _ :: _, [] => none
  | a :: as, b :: bs => if a = b then stripRoot as bs else none

/-- Model of Node path.relative for the case the source exercises: the
file lies beneath the root, so the root prefix and its separator are
stripped; otherwise the path is returned unchanged. -/
def pathRelative (root file : String) : String :=
  match stripRoot (root.data ++ ['/']) file.data with
  | some rest => String.mk rest
  | none => file

/-- The process-wide context of a GradleUserHomeCache instance.
hashFileNames and the cache key salt live in cache-utils.ts, which is not
among the sources; following the spec (section 4.1: a pure, deterministic
function of an ordered sequence of relative path strings; section 3: a
process-wide salt) they are carried as an abstract pure function and an
abstract string, so every theorem below holds for any such pair. -/
structure CacheEnv where
  gradleUserHome : String
  cacheKeyPrefix : String
  hashFileNames : List String → String

/-- Source: getBundleMetaFile (caches.ts). Resolves
gradleUserHome/caches/.gradle-build-action.NAME.cache for a bundle NAME. -/
def getBundleMetaFile (env : CacheEnv) (name : String) : String :=
  pathJoin (pathJoin env.gradleUserHome "caches")
    (".gradle-build-action." ++ name ++ ".cache")

/-- Source: createCacheKey (caches.ts). The key is the process salt, the
bundle name, a hyphen, and the hash of the matched files' paths taken
relative to the Gradle user home. -/
def createCacheKey (env : CacheEnv) (bundle : String) (files : List String) : String :=
  env.cacheKeyPrefix ++ bundle ++ "-" ++
    env.hashFileNames (files.map (pathRelative env.gradleUserHome))

/-- Source: reading a bundle meta-file. Both engines read the stored key
with fs.readFileSync(...).trim(); an absent meta-file reads as the empty
string on the save path. -/
def previousKeyOf (metaContent : Option String) : String :=
  match metaContent with
  | some c => jsTrim c
  | none => ""

/-- Outcome of restoring one bundle (spec: RestoreOutcome). -/
inductive RestoreOutcome where
  | restored (key : String)
  | notFound (key : String)
  | noMetaFile
deriving DecidableEq, Repr

/-- Modelled from the spec: AbstractCache.restoreCache lives in
cache-utils.ts, which is not among the sources. Per spec sections 4.3 and
7, per-bundle I/O failures of the external cache service are caught at the
bundle boundary, logged and degraded to a cache miss, never rethrown; the
call yields the matched key, or nothing on a miss or a caught failure. -/
def restoreCache (service : String → String → Except String (Option String))
    (artifactPath cacheKey : String) : Option String :=
  match service artifactPath cacheKey with
  | Except.ok r => r
  | Except.error _ => none

/-- Result of restoring one bundle: the reported outcome and the list of
calls made to the external cache restore service (path, key). -/
structure RestoreResult where
  outcome : RestoreOutcome
  serviceCalls : List (String × String)
deriving DecidableEq, Repr

/-- Source: restoreArtifactBundle (caches.ts). If the meta-file does not
exist nothing is restored; otherwise the stored key is read with trim and
the external service is asked to restore the artifact path by that key. -/
def restoreArtifactBundle (service : String → String → Except String (Option String))
    (bundle : String) (artifactPath : String) (metaContent : Option String) :
    RestoreResult :=
  match metaContent with
  | none => { outcome := RestoreOutcome.noMetaFile, serviceCalls := [] }
  | some content =>
      let cacheKey := jsTrim content
      match restoreCache service artifactPath cacheKey with
      | some _ =>
          { outcome := RestoreOutcome.restored cacheKey
            serviceCalls := [(artifactPath, cacheKey)] }
      | none =>
          { outcome := RestoreOutcome.notFound cacheKey
            serviceCalls := [(artifactPath, cacheKey)] }

/-- Source: restoreArtifactBundles (caches.ts). Every bundle of the batch
is restored; the batch collects one result per bundle. Bundles are pairs
of a name and an artifact path pattern; metaOf gives each bundle's
meta-file content (none when absent). -/
def restoreArtifactBundles (service : String → String → Except String (Option String))
    (metaOf : String → Option String) (bundles : List (String × String)) :
    List (String × RestoreResult) :=
  bundles.map (fun bp => (bp.1, restoreArtifactBundle service bp.1 bp.2 (metaOf bp.1)))

/-- Result of saving one bundle: the saveCache calls made (path, key), the
meta-file content afterwards, the matched files still present afterwards,
and every path handed to tryDelete. -/
structure SaveResult where
  uploads : List (String × String)
  metaFile : Option String
  liveFiles : List String
  deletions : List String
deriving DecidableEq, Repr

/-- Source: saveArtifactBundle (caches.ts). bundleFiles is the glob result
for the bundle's pattern; metaContent is the meta-file content before the
save (none when absent). tryDelete (cache-utils.ts, not among the sources)
is modelled from the spec as best-effort: the oracle delOk tells which
individual deletions succeed; failures are logged, not fatal. -/
def saveArtifactBundle (env : CacheEnv) (delOk : String → Bool)
    (bundle : String) (artifactPath : String)
    (metaContent : Option String) (bundleFiles : List String) : SaveResult :=
  let bundleMetaFile := getBundleMetaFile env bundle
  if bundleFiles.length = 0 then
    { uploads := []
      metaFile :=
        match metaContent with
        | some c => if delOk bundleMetaFile then none else some c
        | none => none
      liveFiles := []
      deletions :=
        match metaContent with
        | some _ => [bundleMetaFile]
        | none => [] }
  else
    let previouslyRestoredKey := previousKeyOf metaContent
    let cacheKey := createCacheKey env bundle bundleFiles
    if previouslyRestoredKey = cacheKey then
      { uploads := []
        metaFile := metaContent
        liveFiles := bundleFiles.filter (fun f => !delOk f)
        deletions := bundleFiles }
    else
      { uploads := [(artifactPath, cacheKey)]
        metaFile := some cacheKey
        liveFiles := bundleFiles.filter (fun f => !delOk f)
        deletions := bundleFiles }

/-- Configuration read by the cache entry points (cache-utils.ts flags,
modelled from the spec as booleans fixed for the run). -/
structure CacheConfig where
  cacheDisabled : Bool
  cacheReadOnly : Bool

/-- The run-scoped mutable state the entry points in caches.ts touch:
the exported environment variable, the saved action state, and counters of
how many times the underlying GradleStateCache restore and save bodies
actually executed. -/
structure RunState where
  envCacheRestored : Option String
  stateCacheRestored : String
  stateGradleUserHome : String
  stateCacheListener : String
  restoredCount : Nat
  savedCount : Nat
deriving DecidableEq, Repr

/-- JavaScript truthiness of process.env lookups: undefined and the empty
string are falsy. -/
def truthyEnv : Option String → Bool
  | none => false
  | some s => !(s == "")

/-- JavaScript truthiness of core.getState, which yields the empty string
when the state was never saved. -/
def truthyState (s : String) : Bool :=
  !(s == "")

/-- Source: shouldRestoreCaches (caches.ts). -/
def shouldRestoreCaches (cfg : CacheConfig) (st : RunState) : Bool :=
  if cfg.cacheDisabled then false
  else if truthyEnv st.envCacheRestored then false
  else true

/-- Source: shouldSaveCaches (caches.ts). -/
def shouldSaveCaches (cfg : CacheConfig) (st : RunState) : Bool :=
  if cfg.cacheDisabled then false
  else if !truthyState st.stateCacheRestored then false
  else true

/-- Source: restore (caches.ts). When the guard passes, the state cache is
restored (counted), the Gradle user home and listener are saved as state,
and the cache-restored marker is both exported as an environment variable
and saved as state (core.saveState stores the string form of true). -/
def restore (cfg : CacheConfig) (gradleUserHome : String) (st : RunState) : RunState :=
  if !shouldRestoreCaches cfg st then st
  else
    { st with
      stateGradleUserHome := gradleUserHome
      restoredCount := st.restoredCount + 1
      stateCacheListener := "listener"
      envCacheRestored := some "true"
      stateCacheRestored := "true" }

/-- Source: save (caches.ts). When the guard passes and the cache is not
read-only, the state cache save body executes (counted). -/
def save (cfg : CacheConfig) (st : RunState) : RunState :=
  if !shouldSaveCaches cfg st then st
  else if cfg.cacheReadOnly then st
  else { st with savedCount := st.savedCount + 1 }

/-- The operations a run may perform against the entry points. -/
inductive Op where
  | restoreOp (gradleUserHome : String)
  | saveOp
deriving DecidableEq, Repr

/-- One entry-point invocation. -/
def step (cfg : CacheConfig) (st : RunState) : Op → RunState
  | Op.restoreOp g => restore cfg g st
  | Op.saveOp => save cfg st

/-- A sequence of entry-point invocations. -/
def runOps (cfg : CacheConfig) (st : RunState) (ops : List Op) : RunState :=
  ops.foldl (step cfg) st

/-- The state at the start of a job: no environment marker, no saved
action state, nothing restored or saved yet. -/
def initialState : RunState :=
  { envCacheRestored := none
    stateCacheRestored := ""
    stateGradleUserHome := ""
    stateCacheListener := ""
    restoredCount := 0
    savedCount := 0 }

/-! Helper lemmas about dropWhile and the trim model. -/

theorem dropWhile_append_of_forall (p : Char → Bool) (w l : List Char)
    (hw : ∀ c ∈ w, p c = true) : (w ++ l).dropWhile p = l.dropWhile p := by
  induction w with
  | nil => rfl
  | cons a as ih =>
      have ha : p a = true := hw a (by simp)
      rw [List.cons_append, List.dropWhile_cons_of_pos ha]
      exact ih (fun c hc => hw c (by simp [hc]))

theorem dropWhile_nil_of_forall (p : Char → Bool) (w : List Char)
    (hw : ∀ c ∈ w, p c = true) : w.dropWhile p = [] := by
  have h := dropWhile_append_of_forall p w [] hw
  simpa using h

theorem dropWhile_length_le (p : Char → Bool) (l : List Char) :
    (l.dropWhile p).length ≤ l.length := by
  induction l with
  | nil => exact Nat.le_refl 0
  | cons a t ih =>
      cases hp : p a with
      | true =>
          rw [List.dropWhile_cons_of_pos hp]
          exact Nat.le_trans ih (Nat.le_succ _)
      | false =>
          rw [List.dropWhile_cons_of_neg (by simp [hp])]

theorem dropWhile_eq_self_of_length (p : Char → Bool) (l : List Char)
    (h : (l.dropWhile p).length = l.length) : l.dropWhile p = l := by
  cases l with
  | nil => rfl
  | cons a t =>
      cases hp : p a with
      | true =>
          rw [List.dropWhile_cons_of_pos hp] at h
          have hle := dropWhile_length_le p t
          simp only [List.length_cons] at h
          omega
      | false => exact List.dropWhile_cons_of_neg (by simp [hp])

theorem head_false_of_dropWhile_self (p : Char → Bool) (a : Char) (t : List Char)
    (h : (a :: t).dropWhile p = a :: t) : p a = false := by
  cases hp : p a with
  | false => rfl
  | true =>
      rw [List.dropWhile_cons_of_pos hp] at h
      have hle := dropWhile_length_le p t
      have hlen := congrArg List.length h
      simp only [List.length_cons] at hlen
      omega

theorem trimRightChars_append_of_forall (w l : List Char)
    (hw : ∀ c ∈ w, isJsWhitespace c = true) :
    trimRightChars (l ++ w) = trimRightChars l := by
  unfold trimRightChars
  rw [List.reverse_append,
    dropWhile_append_of_forall _ w.reverse _ (fun c hc => hw c (by simpa using hc))]

theorem trimRightChars_length_le (l : List Char) :
    (trimRightChars l).length ≤ l.length := by
  unfold trimRightChars
  simpa using dropWhile_length_le isJsWhitespace l.reverse

theorem trimLeft_of_trim_fix (l : List Char)
    (h : trimRightChars (trimLeftChars l) = l) : trimLeftChars l = l := by
  have h1 : (trimLeftChars l).length ≤ l.length := dropWhile_length_le _ l
  have h2 : (trimRightChars (trimLeftChars l)).length ≤ (trimLeftChars l).length :=
    trimRightChars_length_le _
  rw [h] at h2
  exact dropWhile_eq_self_of_length _ _ (Nat.le_antisymm h1 h2)

theorem trimRight_of_trim_fix (l : List Char)
    (h : trimRightChars (trimLeftChars l) = l) : trimRightChars l = l := by
  have hl := trimLeft_of_trim_fix l h
  rw [hl] at h
  exact h

theorem jsTrimList_sandwich (w1 w2 l : List Char)
    (h1 : ∀ c ∈ w1, isJsWhitespace c = true)
    (h2 : ∀ c ∈ w2, isJsWhitespace c = true)
    (hfix : trimRightChars (trimLeftChars l) = l) :
    trimRightChars (trimLeftChars (w1 ++ l ++ w2)) = l := by
  have hl : trimLeftChars l = l := trimLeft_of_trim_fix l hfix
  have hr : trimRightChars l = l := trimRight_of_trim_fix l hfix
  rw [List.append_assoc]
  show trimRightChars ((w1 ++ (l ++ w2)).dropWhile isJsWhitespace) = l
  rw [dropWhile_append_of_forall _ w1 _ h1]
  cases l with
  | nil =>
      simp only [List.nil_append]
      show trimRightChars (w2.dropWhile isJsWhitespace) = []
      rw [dropWhile_nil_of_forall _ w2 h2]
      rfl
  | cons a t =>
      have ha : isJsWhitespace a = false := head_false_of_dropWhile_self _ a t hl
      show trimRightChars (((a :: t) ++ w2).dropWhile isJsWhitespace) = a :: t
      rw [List.cons_append, List.dropWhile_cons_of_neg (by simp [ha]), ← List.cons_append,
        trimRightChars_append_of_forall w2 _ h2, hr]

/-! Helper lemmas unfolding the three branches of saveArtifactBundle. -/

theorem saveArtifactBundle_empty (env : CacheEnv) (delOk : String → Bool)
    (bundle artifactPath : String) (metaContent : Option String) :
    saveArtifactBundle env delOk bundle artifactPath metaContent [] =
      { uploads := []
        metaFile :=
          match metaContent with
          | some c => if delOk (getBundleMetaFile env bundle) then none else some c
          | none => none
        liveFiles := []
        deletions :=
          match metaContent with
          | some _ => [getBundleMetaFile env bundle]
          | none => [] } := by
  simp [saveArtifactBundle]

theorem saveArtifactBundle_of_eq (env : CacheEnv) (delOk : String → Bool)
    (bundle artifactPath : String) (metaContent : Option String) (bundleFiles : List String)
    (hne : bundleFiles ≠ [])
    (h : previousKeyOf metaContent = createCacheKey env bundle bundleFiles) :
    saveArtifactBundle env delOk bundle artifactPath metaContent bundleFiles =
      { uploads := []
        metaFile := metaContent
        liveFiles := bundleFiles.filter (fun f => !delOk f)
        deletions := bundleFiles } := by
  have hlen : ¬bundleFiles.length = 0 := by
    simpa [List.length_eq_zero] using hne
  simp only [saveArtifactBundle]
  rw [if_neg hlen, if_pos h]

theorem saveArtifactBundle_of_ne (env : CacheEnv) (delOk : String → Bool)
    (bundle artifactPath : String) (metaContent : Option String) (bundleFiles : List String)
    (hne : bundleFiles ≠ [])
    (h : previousKeyOf metaContent ≠ createCacheKey env bundle bundleFiles) :
    saveArtifactBundle env delOk bundle artifactPath metaContent bundleFiles =
      { uploads := [(artifactPath, createCacheKey env bundle bundleFiles)]
        metaFile := some (createCacheKey env bundle bundleFiles)
        liveFiles := bundleFiles.filter (fun f => !delOk f)
        deletions := bundleFiles } := by
  have hlen : ¬bundleFiles.length = 0 := by
    simpa [List.length_eq_zero] using hne
  simp only [saveArtifactBundle]
  rw [if_neg hlen, if_neg h]

/-- Concrete context used by the witnesses below: an abstract salt and a
hash function that ignores its argument, which is allowed since the engine
treats both as opaque. -/
def envW : CacheEnv :=
  { gradleUserHome := "/h", cacheKeyPrefix := "v1-", hashFileNames := fun _ => "h" }

/-! Claim C1. -/

/-- C1: when a bundle's glob matches a non-empty file list and the current
cache key equals the key stored in the meta-file, saveArtifactBundle makes
no saveCache call and leaves the meta-file unchanged; consequently a
second save with no file changes performs no upload, and two consecutive
saves perform exactly one upload when the first one detected a change. -/
theorem save_skip_and_single_upload (env : CacheEnv) (delOk : String → Bool)
    (bundle artifactPath : String) (metaContent : Option String) (bundleFiles : List String)
    (hne : bundleFiles ≠ [])
    (hkey : jsTrim (createCacheKey env bundle bundleFiles) =
      createCacheKey env bundle bundleFiles) :
    (previousKeyOf metaContent = createCacheKey env bundle bundleFiles →
      (saveArtifactBundle env delOk bundle artifactPath metaContent bundleFiles).uploads = [] ∧
      (saveArtifactBundle env delOk bundle artifactPath metaContent bundleFiles).metaFile =
        metaContent) ∧
    ((saveArtifactBundle env delOk bundle artifactPath
        (saveArtifactBundle env delOk bundle artifactPath metaContent bundleFiles).metaFile
        bundleFiles).uploads = [] ∧
      (previousKeyOf metaContent ≠ createCacheKey env bundle bundleFiles →
        ((saveArtifactBundle env delOk bundle artifactPath metaContent bundleFiles).uploads ++
          (saveArtifactBundle env delOk bundle artifactPath
            (saveArtifactBundle env delOk bundle artifactPath metaContent bundleFiles).metaFile
            bundleFiles).uploads).length = 1)) := by
  by_cases h : previousKeyOf metaContent = createCacheKey env bundle bundleFiles
  · rw [saveArtifactBundle_of_eq env delOk bundle artifactPath metaContent bundleFiles hne h]
    refine ⟨fun _ => ⟨rfl, rfl⟩, ?_, fun hch => absurd h hch⟩
    rw [saveArtifactBundle_of_eq env delOk bundle artifactPath metaContent bundleFiles hne h]
  · rw [saveArtifactBundle_of_ne env delOk bundle artifactPath metaContent bundleFiles hne h]
    have hsecond : previousKeyOf (some (createCacheKey env bundle bundleFiles)) =
        createCacheKey env bundle bundleFiles := hkey
    rw [saveArtifactBundle_of_eq env delOk bundle artifactPath
      (some (createCacheKey env bundle bundleFiles)) bundleFiles hne hsecond]
    exact ⟨fun hc => absurd hc h, rfl, fun _ => rfl⟩

/-- Witness for C1 at a concrete bundle with one matched file and no prior
meta-file: the first save uploads once, the second uploads nothing. -/
theorem save_skip_and_single_upload_witness :
    (previousKeyOf none = createCacheKey envW "b" ["/h/x"] →
      (saveArtifactBundle envW (fun _ => true) "b" "/h/pat" none ["/h/x"]).uploads = [] ∧
      (saveArtifactBundle envW (fun _ => true) "b" "/h/pat" none ["/h/x"]).metaFile = none) ∧
    ((saveArtifactBundle envW (fun _ => true) "b" "/h/pat"
        (saveArtifactBundle envW (fun _ => true) "b" "/h/pat" none ["/h/x"]).metaFile
        ["/h/x"]).uploads = [] ∧
      (previousKeyOf none ≠ createCacheKey envW "b" ["/h/x"] →
        ((saveArtifactBundle envW (fun _ => true) "b" "/h/pat" none ["/h/x"]).uploads ++
          (saveArtifactBundle envW (fun _ => true) "b" "/h/pat"
            (saveArtifactBundle envW (fun _ => true) "b" "/h/pat" none ["/h/x"]).metaFile
            ["/h/x"]).uploads).length = 1)) :=
  save_skip_and_single_upload envW (fun _ => true) "b" "/h/pat" none ["/h/x"]
    (by decide) (by rfl)

/-! Claim C2. -/

/-- C2: with a non-empty match list, saveArtifactBundle hands every
matched file to tryDelete in both the upload branch and the skip branch,
and when every individual deletion succeeds no matched file remains in the
live tree. -/
theorem save_deletes_all_matched (env : CacheEnv) (delOk : String → Bool)
    (bundle artifactPath : String) (metaContent : Option String) (bundleFiles : List String)
    (hne : bundleFiles ≠ []) :
    (saveArtifactBundle env delOk bundle artifactPath metaContent bundleFiles).deletions =
      bundleFiles ∧
    ((∀ f ∈ bundleFiles, delOk f = true) →
      (saveArtifactBundle env delOk bundle artifactPath metaContent bundleFiles).liveFiles =
        []) := by
  have hfilter : (∀ f ∈ bundleFiles, delOk f = true) →
      bundleFiles.filter (fun f => !delOk f) = [] := by
    intro hall
    rw [List.filter_eq_nil_iff]
    intro a ha
    simp [hall a ha]
  by_cases h : previousKeyOf metaContent = createCacheKey env bundle bundleFiles
  · rw [saveArtifactBundle_of_eq env delOk bundle artifactPath metaContent bundleFiles hne h]
    exact ⟨rfl, hfilter⟩
  · rw [saveArtifactBundle_of_ne env delOk bundle artifactPath metaContent bundleFiles hne h]
    exact ⟨rfl, hfilter⟩

/-- Witness for C2 at a concrete bundle with two matched files, all
deletions succeeding. -/
theorem save_deletes_all_matched_witness :
    (saveArtifactBundle envW (fun _ => true) "b" "/h/pat" none
      ["/h/x", "/h/y"]).deletions = ["/h/x", "/h/y"] ∧
    ((∀ f ∈ (["/h/x", "/h/y"] : List String), (fun _ : String => true) f = true) →
      (saveArtifactBundle envW (fun _ => true) "b" "/h/pat" none
        ["/h/x", "/h/y"]).liveFiles = []) :=
  save_deletes_all_matched envW (fun _ => true) "b" "/h/pat" none ["/h/x", "/h/y"]
    (by decide)

/-! Claim C3. -/

/-- C3: the cache key is exactly the salt, the bundle name, a hyphen, and
the hash of the matched paths taken relative to the Gradle user home; the
key depends on the matched files only through those relative path names
(in particular never on file contents, which the engine does not read). -/
theorem createCacheKey_shape (env : CacheEnv) (bundle : String) (files : List String)
    (hne : files ≠ []) :
    createCacheKey env bundle files =
      env.cacheKeyPrefix ++ bundle ++ "-" ++
        env.hashFileNames (files.map (pathRelative env.gradleUserHome)) ∧
    ∀ files2 : List String,
      files2.map (pathRelative env.gradleUserHome) =
        files.map (pathRelative env.gradleUserHome) →
      createCacheKey env bundle files2 = createCacheKey env bundle files := by
  refine ⟨rfl, fun files2 h => ?_⟩
  unfold createCacheKey
  rw [h]

/-- Witness for C3 at a concrete non-empty file list. -/
theorem createCacheKey_shape_witness :
    createCacheKey envW "b" ["/h/x"] =
      envW.cacheKeyPrefix ++ "b" ++ "-" ++
        envW.hashFileNames (["/h/x"].map (pathRelative envW.gradleUserHome)) ∧
    ∀ files2 : List String,
      files2.map (pathRelative envW.gradleUserHome) =
        (["/h/x"] : List String).map (pathRelative envW.gradleUserHome) →
      createCacheKey envW "b" files2 = createCacheKey envW "b" ["/h/x"] :=
  createCacheKey_shape envW "b" ["/h/x"] (by decide)

/-! Claim C5. -/

/-- C5: when the glob matches zero files, saveArtifactBundle performs no
upload, touches no live file (the only deletion it may attempt is the
meta-file itself, and only when one exists), and when that deletion
succeeds no meta-file remains for the bundle. -/
theorem save_empty_bundle (env : CacheEnv) (delOk : String → Bool)
    (bundle artifactPath : String) (metaContent : Option String) :
    (saveArtifactBundle env delOk bundle artifactPath metaContent []).uploads = [] ∧
    (saveArtifactBundle env delOk bundle artifactPath metaContent []).liveFiles = [] ∧
    (∀ f ∈ (saveArtifactBundle env delOk bundle artifactPath metaContent []).deletions,
      f = getBundleMetaFile env bundle) ∧
    (metaContent = none →
      (saveArtifactBundle env delOk bundle artifactPath metaContent []).deletions = []) ∧
    (delOk (getBundleMetaFile env bundle) = true →
      (saveArtifactBundle env delOk bundle artifactPath metaContent []).metaFile = none) := by
  rw [saveArtifactBundle_empty env delOk bundle artifactPath metaContent]
  cases metaContent with
  | none => exact ⟨rfl, rfl, by simp, fun _ => rfl, fun _ => rfl⟩
  | some c =>
      refine ⟨rfl, rfl, by simp, by simp, fun hdel => ?_⟩
      simp [hdel]

/-- Witness for C5 at a concrete bundle with an existing meta-file whose
deletion succeeds. -/
theorem save_empty_bundle_witness :
    (saveArtifactBundle envW (fun _ => true) "b" "/h/pat" (some "old") []).uploads = [] ∧
    (saveArtifactBundle envW (fun _ => true) "b" "/h/pat" (some "old") []).liveFiles = [] ∧
    (∀ f ∈ (saveArtifactBundle envW (fun _ => true) "b" "/h/pat" (some "old") []).deletions,
      f = getBundleMetaFile envW "b") ∧
    ((some "old" : Option String) = none →
      (saveArtifactBundle envW (fun _ => true) "b" "/h/pat" (some "old") []).deletions = []) ∧
    ((fun _ : String => true) (getBundleMetaFile envW "b") = true →
      (saveArtifactBundle envW (fun _ => true) "b" "/h/pat" (some "old") []).metaFile =
        none) :=
  save_empty_bundle envW (fun _ => true) "b" "/h/pat" (some "old")

/-! Claim C7: corrected. The meta-file name joins the tool identifier to
the bundle name with a dot, not a hyphen. -/

/-- C7 counterexample: at a concrete root and bundle name, the computed
meta-file path is not the hyphen-joined form the claim states. -/
theorem getBundleMetaFile_not_hyphen_joined :
    getBundleMetaFile
        { gradleUserHome := "/root/.gradle", cacheKeyPrefix := "", hashFileNames := fun _ => "" }
        "wrapper-zips" ≠
      "/root/.gradle/caches/.gradle-build-action-wrapper-zips.cache" := by
  decide

/-- C7 amended: the meta-file path is
cached-root/caches/.gradle-build-action.BUNDLE.cache — the tool identifier
joined to the bundle name by a dot — and on an upload the content written
is exactly the cache key, with nothing appended. -/
theorem getBundleMetaFile_path_and_content (env : CacheEnv) (delOk : String → Bool)
    (bundle artifactPath : String) (metaContent : Option String) (bundleFiles : List String)
    (hne : bundleFiles ≠ [])
    (hch : previousKeyOf metaContent ≠ createCacheKey env bundle bundleFiles) :
    getBundleMetaFile env bundle =
      env.gradleUserHome ++ "/" ++ "caches" ++ "/" ++
        (".gradle-build-action." ++ bundle ++ ".cache") ∧
    (saveArtifactBundle env delOk bundle artifactPath metaContent bundleFiles).metaFile =
      some (createCacheKey env bundle bundleFiles) := by
  refine ⟨rfl, ?_⟩
  rw [saveArtifactBundle_of_ne env delOk bundle artifactPath metaContent bundleFiles hne hch]

/-- Witness for the amended C7 at a concrete changed bundle. -/
theorem getBundleMetaFile_path_and_content_witness :
    getBundleMetaFile envW "b" =
      envW.gradleUserHome ++ "/" ++ "caches" ++ "/" ++
        (".gradle-build-action." ++ "b" ++ ".cache") ∧
    (saveArtifactBundle envW (fun _ => true) "b" "/h/pat" none ["/h/x"]).metaFile =
      some (createCacheKey envW "b" ["/h/x"]) :=
  getBundleMetaFile_path_and_content envW (fun _ => true) "b" "/h/pat" none ["/h/x"]
    (by decide) (by decide)

/-! Claim C8. -/

/-- C8: key derivation is deterministic: in one context (same salt, same
hash function, same Gradle user home) equal file sequences in equal order
always give the identical key string. -/
theorem createCacheKey_deterministic (env : CacheEnv) (bundle : String)
    (files1 files2 : List String) (h : files1 = files2) :
    createCacheKey env bundle files1 = createCacheKey env bundle files2 := by
  rw [h]

/-- Witness for C8 at a concrete file sequence. -/
theorem createCacheKey_deterministic_witness :
    createCacheKey envW "b" ["/h/x", "/h/y"] = createCacheKey envW "b" ["/h/x", "/h/y"] :=
  createCacheKey_deterministic envW "b" ["/h/x", "/h/y"] ["/h/x", "/h/y"] rfl

/-! Claim C4. -/

theorem restoreArtifactBundle_congr
    (s1 s2 : String → String → Except String (Option String))
    (b p : String) (mc : Option String)
    (hagree : ∀ k, s1 p k = s2 p k) :
    restoreArtifactBundle s1 b p mc = restoreArtifactBundle s2 b p mc := by
  cases mc with
  | none => rfl
  | some c =>
      simp only [restoreArtifactBundle, restoreCache]
      rw [hagree (jsTrim c)]

theorem restoreArtifactBundle_of_error
    (s : String → String → Except String (Option String))
    (b p c e : String) (herr : s p (jsTrim c) = Except.error e) :
    restoreArtifactBundle s b p (some c) =
      { outcome := RestoreOutcome.notFound (jsTrim c)
        serviceCalls := [(p, jsTrim c)] } := by
  simp only [restoreArtifactBundle, restoreCache]
  rw [herr]

/-- C4: the batch restore yields one result per bundle; a bundle's result
depends only on the service's answers for that bundle's own artifact path,
so a failure injected at another bundle cannot change it; and a service
failure at a bundle is caught there and degrades to the not-found outcome
of that bundle, never escaping the bundle. -/
theorem restore_bundle_isolation
    (service1 service2 : String → String → Except String (Option String))
    (metaOf : String → Option String) (bundles : List (String × String))
    (j : Nat) (bp : String × String)
    (hbp : bundles[j]? = some bp)
    (hagree : ∀ k, service1 bp.2 k = service2 bp.2 k) :
    (restoreArtifactBundles service1 metaOf bundles).length = bundles.length ∧
    (restoreArtifactBundles service1 metaOf bundles)[j]? =
      some (bp.1, restoreArtifactBundle service2 bp.1 bp.2 (metaOf bp.1)) ∧
    (∀ b p c e, service1 p (jsTrim c) = Except.error e →
      restoreArtifactBundle service1 b p (some c) =
        { outcome := RestoreOutcome.notFound (jsTrim c)
          serviceCalls := [(p, jsTrim c)] }) := by
  refine ⟨by simp [restoreArtifactBundles], ?_,
    fun b p c e herr => restoreArtifactBundle_of_error service1 b p c e herr⟩
  unfold restoreArtifactBundles
  rw [List.getElem?_map, hbp]
  simp only [Option.map_some']
  rw [restoreArtifactBundle_congr service1 service2 bp.1 bp.2 (metaOf bp.1) hagree]

/-- Service used by the C4 witness: fails for artifact path A, answers
with the requested key elsewhere. -/
def serviceFailA (p k : String) : Except String (Option String) :=
  if p = "A" then Except.error "simulated failure" else Except.ok (some k)

/-- Service used by the C4 witness: always answers with the requested
key. -/
def serviceOk (p k : String) : Except String (Option String) :=
  Except.ok (some (p ++ k))

/-- Witness for C4: in a two-bundle batch where the service fails for the
first bundle, the batch still has a result per bundle, the second bundle's
result is the one an everywhere-successful service would give, and the
first bundle's failure is reported as its own not-found outcome. -/
theorem restore_bundle_isolation_witness :
    (restoreArtifactBundles serviceFailA (fun _ => some "k")
      [("a", "A"), ("b", "B")]).length = 2 ∧
    (restoreArtifactBundles serviceFailA (fun _ => some "k")
      [("a", "A"), ("b", "B")])[1]? =
      some ("b", restoreArtifactBundle
        (fun p k => if p = "A" then serviceOk p k else serviceFailA p k)
        "b" "B" (some "k")) ∧
    restoreArtifactBundle serviceFailA "a" "A" (some "k") =
      { outcome := RestoreOutcome.notFound (jsTrim "k")
        serviceCalls := [("A", jsTrim "k")] } := by
  have h := restore_bundle_isolation serviceFailA
    (fun p k => if p = "A" then serviceOk p k else serviceFailA p k)
    (fun _ => some "k") [("a", "A"), ("b", "B")] 1 ("b", "B")
    (by decide)
    (fun k => by simp [serviceFailA])
  exact ⟨h.1, h.2.1, h.2.2 "a" "A" "k" "simulated failure" (by simp [serviceFailA])⟩

/-! Claim C6. -/

/-- C6: when a bundle's meta-file does not exist, restoreArtifactBundle
makes no call to the external cache restore service, reports the
no-meta-file outcome, and yields a result rather than an error. -/
theorem restore_no_meta_file (service : String → String → Except String (Option String))
    (bundle artifactPath : String) :
    restoreArtifactBundle service bundle artifactPath none =
      { outcome := RestoreOutcome.noMetaFile, serviceCalls := [] } :=
  rfl

/-! Claim C9. -/

/-- Invariant tying the recorded cache-restored state to an executed
restore body. -/
def GuardInv (st : RunState) : Prop :=
  (truthyState st.stateCacheRestored = true → 0 < st.restoredCount) ∧
  (0 < st.savedCount → 0 < st.restoredCount)

theorem guardInv_step (cfg : CacheConfig) (st : RunState) (op : Op)
    (h : GuardInv st) : GuardInv (step cfg st op) := by
  cases op with
  | restoreOp g =>
      show GuardInv (restore cfg g st)
      unfold restore
      split
      · exact h
      · exact ⟨fun _ => Nat.succ_pos _, fun _ => Nat.succ_pos _⟩
  | saveOp =>
      show GuardInv (save cfg st)
      unfold save
      split
      · exact h
      · split
        · exact h
        · rename_i hguard _
          have hs : shouldSaveCaches cfg st = true := by
            cases hsv : shouldSaveCaches cfg st with
            | true => rfl
            | false => exact absurd (by simp [hsv]) hguard
          have htruthy : truthyState st.stateCacheRestored = true := by
            unfold shouldSaveCaches at hs
            by_cases hd : cfg.cacheDisabled = true
            · simp [hd] at hs
            · simp only [hd, if_false] at hs
              cases ht : truthyState st.stateCacheRestored with
              | true => rfl
              | false => simp [ht] at hs
          exact ⟨fun _ => h.1 htruthy, fun _ => h.1 htruthy⟩

theorem guardInv_runOps (cfg : CacheConfig) (ops : List Op) (st : RunState)
    (h : GuardInv st) : GuardInv (runOps cfg st ops) := by
  induction ops generalizing st with
  | nil => exact h
  | cons op rest ih => exact ih (step cfg st op) (guardInv_step cfg st op h)

/-- C9: the entry points guard the lifecycle per run: restore does nothing
once the cache-restored environment variable is set, and starting from the
initial state of a job, any sequence of entry-point invocations in which a
save body executed must contain an executed restore body. -/
theorem entry_point_guards :
    (∀ (cfg : CacheConfig) (g : String) (st : RunState),
      truthyEnv st.envCacheRestored = true → restore cfg g st = st) ∧
    (∀ (cfg : CacheConfig) (ops : List Op),
      0 < (runOps cfg initialState ops).savedCount →
      0 < (runOps cfg initialState ops).restoredCount) := by
  constructor
  · intro cfg g st h
    simp [restore, shouldRestoreCaches, h]
  · intro cfg ops
    have hinit : GuardInv initialState := by
      constructor
      · intro ht
        exact absurd ht (by simp [initialState, truthyState])
      · intro hs
        exact absurd hs (by simp [initialState])
    exact (guardInv_runOps cfg ops initialState hinit).2

/-- Witness for C9: a state with the environment marker set is left
untouched by restore, and a run that restores then saves has executed a
restore body. -/
theorem entry_point_guards_witness :
    restore { cacheDisabled := false, cacheReadOnly := false } "g"
      { initialState with envCacheRestored := some "true" } =
      { initialState with envCacheRestored := some "true" } ∧
    0 < (runOps { cacheDisabled := false, cacheReadOnly := false } initialState
      [Op.restoreOp "g", Op.saveOp]).restoredCount :=
  ⟨entry_point_guards.1 { cacheDisabled := false, cacheReadOnly := false } "g"
      { initialState with envCacheRestored := some "true" } (by decide),
    entry_point_guards.2 { cacheDisabled := false, cacheReadOnly := false }
      [Op.restoreOp "g", Op.saveOp] (by decide)⟩

/-! Claim C10. -/

/-- C10: both engines read the stored key with trim, and the save engine
writes the key verbatim, so for a key without surrounding whitespace the
write/read round-trip is the identity, and a stored key that gained
surrounding whitespace still reads back equal to the regenerated key. -/
theorem meta_file_roundtrip (k ws1 ws2 : String)
    (hk : jsTrim k = k)
    (h1 : ∀ c ∈ ws1.data, isJsWhitespace c = true)
    (h2 : ∀ c ∈ ws2.data, isJsWhitespace c = true) :
    previousKeyOf (some k) = k ∧
    previousKeyOf (some (ws1 ++ k ++ ws2)) = k := by
  refine ⟨hk, ?_⟩
  show jsTrim (ws1 ++ k ++ ws2) = k
  have hfix : trimRightChars (trimLeftChars k.data) = k.data := congrArg String.data hk
  have hsand := jsTrimList_sandwich ws1.data ws2.data k.data h1 h2 hfix
  calc jsTrim (ws1 ++ k ++ ws2)
      = String.mk (trimRightChars (trimLeftChars ((ws1 ++ k ++ ws2).data))) := rfl
    _ = String.mk (trimRightChars (trimLeftChars (ws1.data ++ k.data ++ ws2.data))) := by
        rw [String.data_append, String.data_append]
    _ = String.mk k.data := by rw [hsand]
    _ = k := rfl

/-- Witness for C10 at a concrete key surrounded by a space and a trailing
newline. -/
theorem meta_file_roundtrip_witness :
    previousKeyOf (some "v1-b-h") = "v1-b-h" ∧
    previousKeyOf (some (" " ++ "v1-b-h" ++ "\n")) = "v1-b-h" :=
  meta_file_roundtrip "v1-b-h" " " "\n" (by rfl) (by decide) (by decide)

end GradleBuildAction
